import Mathlib

/-!
Shallow embedding of the offline-first health-record versioning and
conflict-resolution engine of `backend/app/records/service.py` (class
`HealthRecordsService`) together with the create-request schema of
`backend/app/records/schemas.py`.

Modelling conventions:
- Firestore documents are entries of an association list `List (Nat × HealthRecord)`;
  the opaque auto-generated document id is modelled by a counter `nextId`.
- `datetime.utcnow()` is modelled by an explicit `now : Nat` argument.
- Python dict payloads (`Dict[str, Any]`) are association lists
  `List (String × String)`; the Python shallow merge of two dicts
  is `dictMerge`.
- Firestore `.update(fields)` is a field-level patch `FieldPatch` applied to
  the stored document by `applyPatch` / `storeUpdate`.
- Firestore `.order_by(...)` is a stable insertion sort `sortBy`.
-/

namespace HealthRecords

/-- Payload of a record: a Python dict `Dict[str, Any]` modelled as an
association list from field names to values. -/
abbrev Payload := List (String × String)

/-- Python shallow dict merge of two dicts, as in the expression
`\x7b**record.get("data", \x7b\x7d), **update_data\x7d` of `update_record`:
keys of `a` keep their position with values overridden by `b`, followed by
the keys of `b` that are not in `a`. -/
def dictMerge (a b : Payload) : Payload :=
  (a.map fun p =>
    match b.lookup p.1 with
    | some v => (p.1, v)
    | none => p) ++ b.filter fun p => (a.lookup p.1).isNone

/-- A stored health record document, with the fields written by
`create_record` plus the two timestamp fields that later patches may add
(`deleted_at` from `delete_record`, `conflict_resolved_at` from
`resolve_conflict`), absent at creation. -/
structure HealthRecord where
  user_id : String
  record_type : String
  data : Payload
  version : Int
  created_at : Nat
  updated_at : Nat
  created_by : String
  is_deleted : Bool
  sync_status : String
  deleted_at : Option Nat := none
  conflict_resolved_at : Option Nat := none
deriving DecidableEq

/-- A Firestore field-level update (argument of `.update(...)`): each field
that is present replaces the stored one, absent fields are kept. -/
structure FieldPatch where
  data : Option Payload := none
  version : Option Int := none
  updated_at : Option Nat := none
  sync_status : Option String := none
  is_deleted : Option Bool := none
  deleted_at : Option Nat := none
  conflict_resolved_at : Option Nat := none
deriving DecidableEq

/-- Apply a Firestore field-level update to a stored document. -/
def applyPatch (r : HealthRecord) (f : FieldPatch) : HealthRecord :=
  { user_id := r.user_id
    record_type := r.record_type
    data := f.data.getD r.data
    version := f.version.getD r.version
    created_at := r.created_at
    updated_at := f.updated_at.getD r.updated_at
    created_by := r.created_by
    is_deleted := f.is_deleted.getD r.is_deleted
    sync_status := f.sync_status.getD r.sync_status
    deleted_at := match f.deleted_at with
      | some t => some t
      | none => r.deleted_at
    conflict_resolved_at := match f.conflict_resolved_at with
      | some t => some t
      | none => r.conflict_resolved_at }

/-- The `data` argument passed to `_create_audit_entry` for each action. -/
inductive AuditData where
  | createSnapshot (rec : HealthRecord)
  | updateSnapshot (fields : FieldPatch)
  | deleteSnapshot (soft : Bool)
  | hardDeleteSnapshot
  | resolveSnapshot (chosen_version : Int) (resolved_data : Payload)
deriving DecidableEq

/-- One document of the `health_records_audit` collection, as written by
`_create_audit_entry`. -/
structure AuditEntry where
  record_id : Nat
  action : String
  user_id : String
  data : AuditData
  timestamp : Nat
deriving DecidableEq

/-- The document store: the `health_records` collection, the
`health_records_audit` collection, and a counter standing for the document
id generator of `collection.document()`. -/
structure Store where
  records : List (Nat × HealthRecord)
  audit : List AuditEntry
  nextId : Nat
deriving DecidableEq

/-- Firestore `records_collection.document(record_id).update(fields)`:
patch every stored entry with that document id. -/
def storeUpdate (s : Store) (record_id : Nat) (f : FieldPatch) : Store :=
  { s with records := s.records.map fun p =>
      if p.1 = record_id then (p.1, applyPatch p.2 f) else p }

/-- The body of `_create_audit_entry`: append one immutable entry to the
audit collection. -/
def appendAudit (s : Store) (record_id : Nat) (action : String) (user_id : String)
    (d : AuditData) (now : Nat) : Store :=
  { s with audit := s.audit ++
      [{ record_id := record_id, action := action, user_id := user_id,
         data := d, timestamp := now }] }

/-- `HealthRecordsService.get_record`: fetch the document; `None` when it
does not exist, `None` when the stored `user_id` differs from the caller. -/
def get_record (s : Store) (record_id : Nat) (user_id : String) : Option HealthRecord :=
  match s.records.lookup record_id with
  | none => none
  | some record_data =>
    if record_data.user_id = user_id then some record_data else none

/-- Insert an element into a list sorted by `le`, keeping earlier elements
with equal keys first. -/
def insertSorted (le : α → α → Bool) (a : α) : List α → List α
  | [] => [a]
  | b :: bs => if le a b then a :: b :: bs else b :: insertSorted le a bs

/-- Stable insertion sort, modelling the store's `order_by`. -/
def sortBy (le : α → α → Bool) : List α → List α
  | [] => []
  | a :: as => insertSorted le a (sortBy le as)

/-- Comparison for `order_by("version", direction="DESCENDING")`. -/
def byVersionDesc (a b : Nat × HealthRecord) : Bool :=
  decide (b.2.version ≤ a.2.version)

/-- Comparison for `order_by("updated_at", direction="DESCENDING")`. -/
def byUpdatedDesc (a b : Nat × HealthRecord) : Bool :=
  decide (b.2.updated_at ≤ a.2.updated_at)

/-- The filter part of the shadow-check query of `create_record`:
same `user_id`, same `record_type`, `is_deleted == False`. -/
def activeOfType (s : Store) (user_id record_type : String) : List (Nat × HealthRecord) :=
  s.records.filter fun p =>
    p.2.user_id == user_id && p.2.record_type == record_type && p.2.is_deleted == false

/-- The version of the first document of the shadow-check query
(`order_by version DESC, limit 1`), `none` when `latest_docs` is empty. -/
def latestServerVersion (s : Store) (user_id record_type : String) : Option Int :=
  match ((sortBy byVersionDesc (activeOfType s user_id record_type)).take 1).head? with
  | some p => some p.2.version
  | none => none

/-- Result of `create_record`: the conflict dict
`\x7bid: None, conflict: True, server_version, client_version\x7d`, or the
created document together with its generated id. -/
inductive CreateResult where
  | conflict (server_version client_version : Int)
  | created (id : Nat) (rec : HealthRecord)
deriving DecidableEq

/-- `HealthRecordsService.create_record`: when `client_version > 1`, look up
the latest non-deleted version for the `(user_id, record_type)` pair and
return a conflict when `client_version <= latest_version`; otherwise create
the document with `version = client_version` and append one audit entry with
`action="create"`. -/
def create_record (s : Store) (user_id record_type : String) (data : Payload)
    (client_version : Int) (created_by : Option String) (now : Nat) :
    CreateResult × Store :=
  let conflictCheck : Option Int :=
    if 1 < client_version then
      match latestServerVersion s user_id record_type with
      | some latest_version =>
        if client_version ≤ latest_version then some latest_version else none
      | none => none
    else none
  match conflictCheck with
  | some latest_version => (CreateResult.conflict latest_version client_version, s)
  | none =>
    let record_data : HealthRecord :=
      { user_id := user_id
        record_type := record_type
        data := data
        version := client_version
        created_at := now
        updated_at := now
        created_by := created_by.getD user_id
        is_deleted := false
        sync_status := "synced" }
    let id := s.nextId
    let s1 : Store :=
      { s with records := s.records ++ [(id, record_data)], nextId := s.nextId + 1 }
    let s2 := appendAudit s1 id "create" user_id (AuditData.createSnapshot record_data) now
    (CreateResult.created id record_data, s2)

/-- Result of `list_records`. -/
structure ListResult where
  records : List (Nat × HealthRecord)
  total : Nat
  page : Nat
  page_size : Nat
  has_more : Bool
deriving DecidableEq

/-- `HealthRecordsService.list_records`: filter by owner, optional type,
and (unless `include_deleted`) `is_deleted == False`; order by `updated_at`
descending; paginate by offset/limit; re-run the filters for the total
count; `has_more = page * page_size < total`. -/
def list_records (s : Store) (user_id : String) (record_type : Option String)
    (page page_size : Nat) (include_deleted : Bool) : ListResult :=
  let q0 := s.records.filter fun p => p.2.user_id == user_id
  let q1 : List (Nat × HealthRecord) := match record_type with
    | some t => q0.filter fun p => p.2.record_type == t
    | none => q0
  let q2 := if include_deleted then q1 else q1.filter fun p => p.2.is_deleted == false
  let ordered := sortBy byUpdatedDesc q2
  let offset := (page - 1) * page_size
  let pageRecords := (ordered.drop offset).take page_size
  let c0 := s.records.filter fun p => p.2.user_id == user_id
  let c1 : List (Nat × HealthRecord) := match record_type with
    | some t => c0.filter fun p => p.2.record_type == t
    | none => c0
  let c2 := if include_deleted then c1 else c1.filter fun p => p.2.is_deleted == false
  let total := c2.length
  { records := pageRecords
    total := total
    page := page
    page_size := page_size
    has_more := decide (page * page_size < total) }

/-- Result of `update_record`: `None` (record not found), the conflict dict
carrying `server_version`, `client_version` and the current record as
`server_data`, or the updated record re-read from the store. -/
inductive UpdateResult where
  | notFound
  | conflict (id : Nat) (server_version client_version : Int) (server_data : HealthRecord)
  | updated (rec : HealthRecord)
deriving DecidableEq

/-- An update call was accepted: its result is the updated record. -/
def UpdateResult.isAccepted : UpdateResult → Bool
  | .updated _ => true
  | _ => false

/-- The half of `update_record` after the `get_record` read: conflict check
against the version of the snapshot `record`, then the field-level write and
the audit append, then the re-read.  Splitting the read from the rest
mirrors the source, where the read and the write are separate awaited store
operations with no transaction around them. -/
def update_commit (s : Store) (record_id : Nat) (user_id : String)
    (update_data : Payload) (client_version : Int) (now : Nat)
    (record : HealthRecord) : UpdateResult × Store :=
  let server_version := record.version
  if client_version ≤ server_version then
    (UpdateResult.conflict record_id server_version client_version record, s)
  else
    let update_fields : FieldPatch :=
      { data := some (dictMerge record.data update_data)
        version := some client_version
        updated_at := some now
        sync_status := some "synced" }
    let s1 := storeUpdate s record_id update_fields
    let s2 := appendAudit s1 record_id "update" user_id
        (AuditData.updateSnapshot update_fields) now
    (match get_record s2 record_id user_id with
     | some r => UpdateResult.updated r
     | none => UpdateResult.notFound, s2)

/-- `HealthRecordsService.update_record`: read the record (`get_record`),
then run the conflict check and the write against that snapshot. -/
def update_record (s : Store) (record_id : Nat) (user_id : String)
    (update_data : Payload) (client_version : Int) (now : Nat) :
    UpdateResult × Store :=
  match get_record s record_id user_id with
  | none => (UpdateResult.notFound, s)
  | some record => update_commit s record_id user_id update_data client_version now record

/-- `HealthRecordsService.delete_record`: soft delete patches
`is_deleted`, `deleted_at`, `updated_at` and logs `action="delete"`;
hard delete removes the document and logs `action="hard_delete"`. -/
def delete_record (s : Store) (record_id : Nat) (user_id : String)
    (soft_delete : Bool) (now : Nat) : Bool × Store :=
  match get_record s record_id user_id with
  | none => (false, s)
  | some _ =>
    if soft_delete then
      let fields : FieldPatch :=
        { is_deleted := some true, deleted_at := some now, updated_at := some now }
      let s1 := storeUpdate s record_id fields
      let s2 := appendAudit s1 record_id "delete" user_id (AuditData.deleteSnapshot true) now
      (true, s2)
    else
      let s1 : Store := { s with records := s.records.filter fun p => !(p.1 == record_id) }
      let s2 := appendAudit s1 record_id "hard_delete" user_id AuditData.hardDeleteSnapshot now
      (true, s2)

/-- `HealthRecordsService.resolve_conflict`: read the record, then patch it
with `data = resolved_data`, `version = stored version + 1`, refreshed
`updated_at`, `sync_status = "synced"` and `conflict_resolved_at`, append an
audit entry with `action="resolve_conflict"` carrying the advisory
`chosen_version` and the resolved payload, and re-read the record. -/
def resolve_conflict (s : Store) (record_id : Nat) (chosen_version : Int)
    (resolved_data : Payload) (user_id : String) (now : Nat) :
    Option HealthRecord × Store :=
  match get_record s record_id user_id with
  | none => (none, s)
  | some record =>
    let resolved_fields : FieldPatch :=
      { data := some resolved_data
        version := some (record.version + 1)
        updated_at := some now
        sync_status := some "synced"
        conflict_resolved_at := some now }
    let s1 := storeUpdate s record_id resolved_fields
    let s2 := appendAudit s1 record_id "resolve_conflict" user_id
        (AuditData.resolveSnapshot chosen_version resolved_data) now
    (get_record s2 record_id user_id, s2)

/-- `HealthRecordsService.get_pending_sync_records`. -/
def get_pending_sync_records (s : Store) (user_id : String) : List (Nat × HealthRecord) :=
  s.records.filter fun p => p.2.user_id == user_id && p.2.sync_status == "pending"

/-- The `MedicalHistoryCreate` request schema of
`backend/app/records/schemas.py` (dates as abstract instants). -/
structure MedicalHistoryCreate where
  title : String
  description : String
  condition : Option String := none
  diagnosis_date : Option Nat := none
  doctor_name : Option String := none
  hospital_name : Option String := none
  attachments : List String := []
  metadata : Payload := []
  client_version : Int
deriving DecidableEq

/-- Pydantic validation of `MedicalHistoryCreate`: the only value
constraint declared on the model is `min_length=1` on `title`;
`client_version` is a bare `int` field. -/
def medicalHistoryCreateValid (m : MedicalHistoryCreate) : Bool :=
  decide (1 ≤ m.title.length)

/-- The write operations of the engine that touch an existing record's
version: `update_record` and `resolve_conflict`. -/
inductive WriteOp where
  | update (record_id : Nat) (user_id : String) (update_data : Payload)
      (client_version : Int) (now : Nat)
  | resolve (record_id : Nat) (user_id : String) (chosen_version : Int)
      (resolved_data : Payload) (now : Nat)
deriving DecidableEq

/-- State transition of one write operation (the returned value discarded). -/
def applyWriteOp (s : Store) : WriteOp → Store
  | .update id u d cv now => (update_record s id u d cv now).2
  | .resolve id u cv d now => (resolve_conflict s id cv d u now).2

theorem lookup_map_patch_self {l : List (Nat × HealthRecord)} {id : Nat} {r : HealthRecord}
    (f : FieldPatch) (h : l.lookup id = some r) :
    (l.map fun p => if p.1 = id then (p.1, applyPatch p.2 f) else p).lookup id
      = some (applyPatch r f) := by
  induction l with
  | nil => simp at h
  | cons hd tl ih =>
    obtain ⟨k, v⟩ := hd
    by_cases hk : id = k
    · subst hk
      rw [List.lookup_cons] at h
      simp only [beq_self_eq_true] at h
      have hv : v = r := by simpa using h
      rw [List.map_cons]
      rw [show (if ((id, v) : Nat × HealthRecord).1 = id then
            (((id, v) : Nat × HealthRecord).1, applyPatch ((id, v) : Nat × HealthRecord).2 f)
            else (id, v)) = (id, applyPatch v f) from by simp]
      rw [List.lookup_cons]
      simp [hv]
    · have hb : (id == k) = false := by simp [hk]
      rw [List.lookup_cons, hb] at h
      rw [List.map_cons]
      rw [show (if ((k, v) : Nat × HealthRecord).1 = id then
            (((k, v) : Nat × HealthRecord).1, applyPatch ((k, v) : Nat × HealthRecord).2 f)
            else (k, v)) = (k, v) from by simp [Ne.symm hk]]
      rw [List.lookup_cons, hb]
      exact ih (by simpa using h)

theorem lookup_map_patch_ne {l : List (Nat × HealthRecord)} {id tid : Nat}
    (f : FieldPatch) (h : id ≠ tid) :
    (l.map fun p => if p.1 = tid then (p.1, applyPatch p.2 f) else p).lookup id
      = l.lookup id := by
  induction l with
  | nil => simp
  | cons hd tl ih =>
    obtain ⟨k, v⟩ := hd
    by_cases hk : k = tid
    · subst hk
      have hb : (id == k) = false := by simp [h]
      rw [List.map_cons]
      rw [show (if ((k, v) : Nat × HealthRecord).1 = k then
            (((k, v) : Nat × HealthRecord).1, applyPatch ((k, v) : Nat × HealthRecord).2 f)
            else (k, v)) = (k, applyPatch v f) from by simp]
      rw [List.lookup_cons, List.lookup_cons, hb]
      simpa using ih
    · rw [List.map_cons]
      rw [show (if ((k, v) : Nat × HealthRecord).1 = tid then
            (((k, v) : Nat × HealthRecord).1, applyPatch ((k, v) : Nat × HealthRecord).2 f)
            else (k, v)) = (k, v) from by simp [hk]]
      rw [List.lookup_cons, List.lookup_cons]
      cases hb : (id == k) with
      | true => rfl
      | false => simpa using ih

theorem lookup_storeUpdate_self {s : Store} {id : Nat} {r : HealthRecord} (f : FieldPatch)
    (h : s.records.lookup id = some r) :
    (storeUpdate s id f).records.lookup id = some (applyPatch r f) := by
  simpa [storeUpdate] using lookup_map_patch_self f h

theorem lookup_storeUpdate_ne {s : Store} {id tid : Nat} (f : FieldPatch) (h : id ≠ tid) :
    (storeUpdate s tid f).records.lookup id = s.records.lookup id := by
  simpa [storeUpdate] using lookup_map_patch_ne f h

theorem get_record_eq_some {s : Store} {id : Nat} {u : String} {r : HealthRecord}
    (h : s.records.lookup id = some r) (hown : r.user_id = u) :
    get_record s id u = some r := by
  simp [get_record, h, hown]

theorem applyPatch_user_id (r : HealthRecord) (f : FieldPatch) :
    (applyPatch r f).user_id = r.user_id := rfl

theorem mem_insertSorted {α : Type} (le : α → α → Bool) (a x : α) (l : List α) :
    x ∈ insertSorted le a l ↔ x = a ∨ x ∈ l := by
  induction l with
  | nil => simp [insertSorted]
  | cons b bs ih =>
    cases hab : le a b with
    | true =>
      have he : insertSorted le a (b :: bs) = a :: b :: bs := by
        simp [insertSorted, hab]
      rw [he]
      simp
    | false =>
      have he : insertSorted le a (b :: bs) = b :: insertSorted le a bs := by
        simp [insertSorted, hab]
      rw [he]
      simp [ih]
      tauto

theorem mem_sortBy {α : Type} (le : α → α → Bool) (x : α) (l : List α) :
    x ∈ sortBy le l ↔ x ∈ l := by
  induction l with
  | nil => simp [sortBy]
  | cons a as ih =>
    simp [sortBy, mem_insertSorted, ih]

theorem pairwise_insertSorted {α : Type} (le : α → α → Bool)
    (htrans : ∀ a b c, le a b = true → le b c = true → le a c = true)
    (htot : ∀ a b, le a b = true ∨ le b a = true)
    (a : α) (l : List α) (hl : l.Pairwise fun x y => le x y = true) :
    (insertSorted le a l).Pairwise fun x y => le x y = true := by
  induction l with
  | nil => simp [insertSorted]
  | cons b bs ih =>
    rcases List.pairwise_cons.mp hl with ⟨hb, hbs⟩
    cases hab : le a b with
    | true =>
      have he : insertSorted le a (b :: bs) = a :: b :: bs := by
        simp [insertSorted, hab]
      rw [he]
      refine List.pairwise_cons.mpr ⟨?_, hl⟩
      intro x hx
      rcases List.mem_cons.mp hx with hx | hx
      · subst hx; exact hab
      · exact htrans a b x hab (hb x hx)
    | false =>
      have he : insertSorted le a (b :: bs) = b :: insertSorted le a bs := by
        simp [insertSorted, hab]
      rw [he]
      refine List.pairwise_cons.mpr ⟨?_, ih hbs⟩
      intro x hx
      rcases (mem_insertSorted le a x bs).mp hx with hx | hx
      · rcases htot a b with h' | h'
        · rw [hab] at h'
          exact absurd h' (by simp)
        · rw [hx]
          exact h'
      · exact hb x hx

theorem pairwise_sortBy {α : Type} (le : α → α → Bool)
    (htrans : ∀ a b c, le a b = true → le b c = true → le a c = true)
    (htot : ∀ a b, le a b = true ∨ le b a = true) (l : List α) :
    (sortBy le l).Pairwise fun x y => le x y = true := by
  induction l with
  | nil => simp [sortBy]
  | cons a as ih => exact pairwise_insertSorted le htrans htot a (sortBy le as) ih

theorem latestServerVersion_is_max {s : Store} {u t : String} {lv : Int}
    (h : latestServerVersion s u t = some lv) :
    ∀ p ∈ activeOfType s u t, p.2.version ≤ lv := by
  intro p hp
  have hmem : p ∈ sortBy byVersionDesc (activeOfType s u t) :=
    (mem_sortBy _ p _).mpr hp
  have hpw := pairwise_sortBy byVersionDesc
    (fun a b c hab hbc => by
      simp only [byVersionDesc, decide_eq_true_eq] at hab hbc ⊢
      omega)
    (fun a b => by
      simp only [byVersionDesc]
      rcases Int.le_total b.2.version a.2.version with h' | h'
      · left; simpa using h'
      · right; simpa using h')
    (activeOfType s u t)
  unfold latestServerVersion at h
  cases hsl : sortBy byVersionDesc (activeOfType s u t) with
  | nil =>
    rw [hsl] at hmem
    simp at hmem
  | cons hd tl =>
    rw [hsl] at h hmem hpw
    simp only [List.take_succ_cons, List.take_zero, List.head?_cons, Option.some.injEq] at h
    rcases List.pairwise_cons.mp hpw with ⟨hhd, _⟩
    rcases List.mem_cons.mp hmem with hm | hm
    · subst hm
      omega
    · have hle := hhd p hm
      simp only [byVersionDesc, decide_eq_true_eq] at hle
      omega

theorem appendAudit_records (s : Store) (i : Nat) (a u : String) (d : AuditData) (n : Nat) :
    (appendAudit s i a u d n).records = s.records := rfl

theorem storeUpdate_audit (s : Store) (i : Nat) (f : FieldPatch) :
    (storeUpdate s i f).audit = s.audit := rfl

theorem update_record_rejected {s : Store} {id : Nat} {u : String} {r : HealthRecord}
    (patch : Payload) {cv : Int} (now : Nat)
    (hlook : s.records.lookup id = some r) (hown : r.user_id = u) (hle : cv ≤ r.version) :
    update_record s id u patch cv now = (UpdateResult.conflict id r.version cv r, s) := by
  have hget : get_record s id u = some r := get_record_eq_some hlook hown
  simp [update_record, hget, update_commit, hle]

theorem update_record_accepted {s : Store} {id : Nat} {u : String} {r : HealthRecord}
    (patch : Payload) {cv : Int} (now : Nat)
    (hlook : s.records.lookup id = some r) (hown : r.user_id = u) (hlt : r.version < cv) :
    update_record s id u patch cv now =
      (UpdateResult.updated (applyPatch r
          { data := some (dictMerge r.data patch), version := some cv,
            updated_at := some now, sync_status := some "synced" }),
        appendAudit (storeUpdate s id
            { data := some (dictMerge r.data patch), version := some cv,
              updated_at := some now, sync_status := some "synced" }) id "update" u
          (AuditData.updateSnapshot
            { data := some (dictMerge r.data patch), version := some cv,
              updated_at := some now, sync_status := some "synced" }) now) := by
  have hget : get_record s id u = some r := get_record_eq_some hlook hown
  have hs1 := lookup_storeUpdate_self
    ({ data := some (dictMerge r.data patch), version := some cv,
       updated_at := some now, sync_status := some "synced" } : FieldPatch) hlook
  have hget2 : get_record (appendAudit (storeUpdate s id
      { data := some (dictMerge r.data patch), version := some cv,
        updated_at := some now, sync_status := some "synced" }) id "update" u
      (AuditData.updateSnapshot
        { data := some (dictMerge r.data patch), version := some cv,
          updated_at := some now, sync_status := some "synced" }) now) id u
      = some (applyPatch r
        { data := some (dictMerge r.data patch), version := some cv,
          updated_at := some now, sync_status := some "synced" }) := by
    apply get_record_eq_some
    · simpa [appendAudit_records] using hs1
    · rw [applyPatch_user_id]; exact hown
  have hnle : ¬ cv ≤ r.version := by omega
  simp only [update_record, hget, update_commit, if_neg hnle]
  rw [hget2]

theorem resolve_conflict_found {s : Store} {id : Nat} {u : String} {r : HealthRecord}
    (cvc : Int) (d : Payload) (now : Nat)
    (hlook : s.records.lookup id = some r) (hown : r.user_id = u) :
    resolve_conflict s id cvc d u now =
      (some (applyPatch r
          { data := some d, version := some (r.version + 1), updated_at := some now,
            sync_status := some "synced", conflict_resolved_at := some now }),
        appendAudit (storeUpdate s id
            { data := some d, version := some (r.version + 1), updated_at := some now,
              sync_status := some "synced", conflict_resolved_at := some now })
          id "resolve_conflict" u (AuditData.resolveSnapshot cvc d) now) := by
  have hget : get_record s id u = some r := get_record_eq_some hlook hown
  have hs1 := lookup_storeUpdate_self
    ({ data := some d, version := some (r.version + 1), updated_at := some now,
       sync_status := some "synced", conflict_resolved_at := some now } : FieldPatch) hlook
  have hget2 : get_record (appendAudit (storeUpdate s id
      { data := some d, version := some (r.version + 1), updated_at := some now,
        sync_status := some "synced", conflict_resolved_at := some now })
      id "resolve_conflict" u (AuditData.resolveSnapshot cvc d) now) id u
      = some (applyPatch r
        { data := some d, version := some (r.version + 1), updated_at := some now,
          sync_status := some "synced", conflict_resolved_at := some now }) := by
    apply get_record_eq_some
    · simpa [appendAudit_records] using hs1
    · rw [applyPatch_user_id]; exact hown
  simp only [resolve_conflict, hget]
  rw [hget2]

/-- C1: for every update call on an existing record owned by the caller, if
`client_version` is at most the stored `server_version`, the result is the
conflict carrying `server_version`, `client_version` and the full current
record as `server_data`, with the store (hence the stored record) unchanged;
otherwise the patch is applied as a shallow merge over the existing payload,
the stored version becomes `client_version`, `updated_at` is refreshed, and
exactly one audit entry with `action="update"` is appended. -/
theorem C1_update_conflict_rule (s : Store) (id : Nat) (u : String) (patch : Payload)
    (cv : Int) (now : Nat) (r : HealthRecord)
    (hlook : s.records.lookup id = some r) (hown : r.user_id = u) :
    (cv ≤ r.version →
      update_record s id u patch cv now = (UpdateResult.conflict id r.version cv r, s))
    ∧ (r.version < cv →
      ∃ r', (update_record s id u patch cv now).1 = UpdateResult.updated r'
        ∧ (update_record s id u patch cv now).2.records.lookup id = some r'
        ∧ r'.data = dictMerge r.data patch
        ∧ r'.version = cv
        ∧ r'.updated_at = now
        ∧ (update_record s id u patch cv now).2.audit
            = s.audit ++
              [{ record_id := id, action := "update", user_id := u,
                 data := AuditData.updateSnapshot
                   { data := some (dictMerge r.data patch), version := some cv,
                     updated_at := some now, sync_status := some "synced" },
                 timestamp := now }]) := by
  constructor
  · intro hle
    exact update_record_rejected patch now hlook hown hle
  · intro hlt
    rw [update_record_accepted patch now hlook hown hlt]
    refine ⟨applyPatch r
      { data := some (dictMerge r.data patch), version := some cv,
        updated_at := some now, sync_status := some "synced" }, rfl, ?_, rfl, rfl, rfl, ?_⟩
    · rw [appendAudit_records]
      exact lookup_storeUpdate_self _ hlook
    · simp [appendAudit, storeUpdate]

/-- Sample one-record store used by the witnesses. -/
def sampleRec : HealthRecord :=
  { user_id := "alice", record_type := "medical_history", data := [("k","v")],
    version := 3, created_at := 0, updated_at := 0, created_by := "alice",
    is_deleted := false, sync_status := "synced" }

/-- Sample store holding `sampleRec` under document id 0. -/
def sampleStore : Store := { records := [(0, sampleRec)], audit := [], nextId := 1 }

/-- C1 witness: the theorem applied to a concrete one-record store, in both
branches. -/
theorem C1_update_conflict_rule_witness :
    update_record sampleStore 0 "alice" [("a","1")] 3 9
      = (UpdateResult.conflict 0 3 3 sampleRec, sampleStore)
    ∧ ∃ r', (update_record sampleStore 0 "alice" [("a","1")] 4 9).1 = UpdateResult.updated r'
        ∧ r'.version = 4 := by
  constructor
  · exact (C1_update_conflict_rule sampleStore 0 "alice" [("a","1")] 3 9 sampleRec
      rfl rfl).1 (by decide)
  · obtain ⟨r', h1, _, _, h4, _⟩ :=
      (C1_update_conflict_rule sampleStore 0 "alice" [("a","1")] 4 9 sampleRec
        rfl rfl).2 (by decide)
    exact ⟨r', h1, h4⟩

/-- C4: for every `resolve_conflict` call on an existing record owned by the
caller, the operation succeeds (the result is `some`, never a conflict), the
stored version becomes the prior server version + 1 regardless of the
supplied `chosen_version`, the payload is replaced by `resolved_data`,
`sync_status` becomes `"synced"`, `conflict_resolved_at` is stamped, and one
audit entry with `action="resolve_conflict"` recording `chosen_version` and
the final payload is appended. -/
theorem C4_resolve_conflict_contract (s : Store) (id : Nat) (u : String)
    (chosen_version : Int) (resolved_data : Payload) (now : Nat) (r : HealthRecord)
    (hlook : s.records.lookup id = some r) (hown : r.user_id = u) :
    ∃ r', (resolve_conflict s id chosen_version resolved_data u now).1 = some r'
      ∧ r'.version = r.version + 1
      ∧ r'.data = resolved_data
      ∧ r'.sync_status = "synced"
      ∧ r'.conflict_resolved_at = some now
      ∧ (resolve_conflict s id chosen_version resolved_data u now).2.records.lookup id
          = some r'
      ∧ (resolve_conflict s id chosen_version resolved_data u now).2.audit
          = s.audit ++
            [{ record_id := id, action := "resolve_conflict", user_id := u,
               data := AuditData.resolveSnapshot chosen_version resolved_data,
               timestamp := now }] := by
  rw [resolve_conflict_found chosen_version resolved_data now hlook hown]
  refine ⟨applyPatch r
    { data := some resolved_data, version := some (r.version + 1),
      updated_at := some now, sync_status := some "synced",
      conflict_resolved_at := some now }, rfl, rfl, rfl, rfl, rfl, ?_, ?_⟩
  · rw [appendAudit_records]
    exact lookup_storeUpdate_self _ hlook
  · simp [appendAudit, storeUpdate]

/-- C4 witness: resolving on the concrete sample store with an arbitrary
advisory `chosen_version` of 99 yields version 4 = 3 + 1. -/
theorem C4_resolve_conflict_contract_witness :
    ∃ r', (resolve_conflict sampleStore 0 99 [("z","9")] "alice" 7).1 = some r'
      ∧ r'.version = 4 ∧ r'.data = [("z","9")] := by
  obtain ⟨r', h1, h2, h3, _⟩ :=
    C4_resolve_conflict_contract sampleStore 0 "alice" 99 [("z","9")] 7 sampleRec rfl rfl
  exact ⟨r', h1, by rw [h2]; rfl, h3⟩

/-- C10: a soft-deleted record remains mutable: for a stored record owned by
the caller whose `is_deleted` flag is true, an update with a newer
`client_version` is still accepted and a `resolve_conflict` still succeeds,
and in both cases the accepted write leaves `is_deleted` true. -/
theorem C10_soft_deleted_still_mutable (s : Store) (id : Nat) (u : String)
    (patch : Payload) (cv chosen_version : Int) (resolved_data : Payload) (now : Nat)
    (r : HealthRecord) (hlook : s.records.lookup id = some r) (hown : r.user_id = u)
    (hdel : r.is_deleted = true) :
    (r.version < cv →
      ∃ r', (update_record s id u patch cv now).1 = UpdateResult.updated r'
        ∧ r'.is_deleted = true)
    ∧ ∃ r'', (resolve_conflict s id chosen_version resolved_data u now).1 = some r''
        ∧ r''.is_deleted = true := by
  constructor
  · intro hlt
    rw [update_record_accepted patch now hlook hown hlt]
    exact ⟨_, rfl, by simp [applyPatch, hdel]⟩
  · rw [resolve_conflict_found chosen_version resolved_data now hlook hown]
    exact ⟨_, rfl, by simp [applyPatch, hdel]⟩

/-- Sample store whose single record is soft-deleted. -/
def sampleDeletedRec : HealthRecord :=
  { user_id := "alice", record_type := "medical_history", data := [("k","v")],
    version := 3, created_at := 0, updated_at := 2, created_by := "alice",
    is_deleted := true, sync_status := "synced", deleted_at := some 2 }

/-- Store holding the soft-deleted `sampleDeletedRec` under id 0. -/
def sampleDeletedStore : Store :=
  { records := [(0, sampleDeletedRec)], audit := [], nextId := 1 }

/-- C10 witness: the update and the resolution both succeed on a concrete
soft-deleted record and leave it deleted. -/
theorem C10_soft_deleted_still_mutable_witness :
    (∃ r', (update_record sampleDeletedStore 0 "alice" [("a","1")] 4 9).1
        = UpdateResult.updated r' ∧ r'.is_deleted = true)
    ∧ ∃ r'', (resolve_conflict sampleDeletedStore 0 5 [("z","9")] "alice" 9).1 = some r''
        ∧ r''.is_deleted = true := by
  obtain ⟨h1, h2⟩ := C10_soft_deleted_still_mutable sampleDeletedStore 0 "alice"
    [("a","1")] 4 5 [("z","9")] 9 sampleDeletedRec rfl rfl rfl
  exact ⟨h1 (by decide), h2⟩

/-- C2: for every create call, if `client_version > 1` and `client_version`
is at most the latest existing version among non-deleted records for the
same owner/type pair (the head of the version-descending query, shown below
to be the maximum), the result is a Conflict carrying `server_version` and
`client_version` and the store is unchanged; otherwise a new record is
created with `version = client_version` and exactly one audit entry with
`action="create"` is appended. -/
theorem C2_create_version_guard (s : Store) (u t : String) (d : Payload) (cv : Int)
    (cb : Option String) (now : Nat) :
    (∀ lv, 1 < cv → latestServerVersion s u t = some lv → cv ≤ lv →
      create_record s u t d cv cb now = (CreateResult.conflict lv cv, s)
      ∧ ∀ p ∈ activeOfType s u t, p.2.version ≤ lv)
    ∧ (¬(1 < cv ∧ ∃ lv, latestServerVersion s u t = some lv ∧ cv ≤ lv) →
      ∃ rec, create_record s u t d cv cb now
        = (CreateResult.created s.nextId rec,
           { records := s.records ++ [(s.nextId, rec)]
             audit := s.audit ++
               [{ record_id := s.nextId, action := "create", user_id := u,
                  data := AuditData.createSnapshot rec, timestamp := now }]
             nextId := s.nextId + 1 })
        ∧ rec.version = cv) := by
  constructor
  · intro lv h1 hlv hle
    constructor
    · simp [create_record, h1, hlv, hle]
    · exact latestServerVersion_is_max hlv
  · intro hnc
    have hcc : (if 1 < cv then
        match latestServerVersion s u t with
        | some latest_version =>
          if cv ≤ latest_version then some latest_version else none
        | none => none
      else none) = (none : Option Int) := by
      by_cases h1 : 1 < cv
      · cases hl : latestServerVersion s u t with
        | none => simp [h1, hl]
        | some lv =>
          by_cases hle : cv ≤ lv
          · exact absurd ⟨h1, lv, hl, hle⟩ hnc
          · simp [h1, hl, hle]
      · simp [h1]
    refine ⟨{ user_id := u, record_type := t, data := d, version := cv,
              created_at := now, updated_at := now, created_by := cb.getD u,
              is_deleted := false, sync_status := "synced" }, ?_, rfl⟩
    simp only [create_record, hcc]
    simp [appendAudit]

/-- C2 witness: against the sample store (latest version 3), a create with
`client_version = 2` conflicts and a create with `client_version = 4`
creates a version-4 record. -/
theorem C2_create_version_guard_witness :
    create_record sampleStore "alice" "medical_history" [("n","1")] 2 none 9
      = (CreateResult.conflict 3 2, sampleStore)
    ∧ ∃ rec, (create_record sampleStore "alice" "medical_history" [("n","1")] 4 none 9).1
        = CreateResult.created 1 rec ∧ rec.version = 4 := by
  constructor
  · exact ((C2_create_version_guard sampleStore "alice" "medical_history" [("n","1")] 2
      none 9).1 3 (by decide) (by decide) (by decide)).1
  · obtain ⟨rec, h1, h2⟩ :=
      (C2_create_version_guard sampleStore "alice" "medical_history" [("n","1")] 4
        none 9).2 (by
          rintro ⟨-, lv, hlv, hle⟩
          have h3 : latestServerVersion sampleStore "alice" "medical_history"
              = some 3 := by decide
          rw [h3] at hlv
          injection hlv with hlv
          rw [← hlv] at hle
          exact absurd hle (by decide))
    exact ⟨rec, by rw [h1]; rfl, h2⟩

/-- Store holding one non-deleted version-1 medical-history record,
refuting the create-shadow half of the Version Guard claim. -/
def c3Store : Store :=
  { records := [(0,
      { user_id := "u1", record_type := "medical_history", data := [],
        version := 1, created_at := 0, updated_at := 0, created_by := "u1",
        is_deleted := false, sync_status := "synced" })],
    audit := [], nextId := 1 }

/-- C3 counterexample: a non-deleted version-1 medical-history record exists
for the owner (the latest version for the pair is 1), yet a second create
with `client_version = 1` does not return a Conflict: it creates a second
record, so the store ends with two records. -/
theorem C3_counterexample_create_v1_no_conflict :
    latestServerVersion c3Store "u1" "medical_history" = some 1
    ∧ (create_record c3Store "u1" "medical_history" [] 1 none 5).1
      = CreateResult.created 1
        { user_id := "u1", record_type := "medical_history", data := [],
          version := 1, created_at := 5, updated_at := 5, created_by := "u1",
          is_deleted := false, sync_status := "synced" }
    ∧ (create_record c3Store "u1" "medical_history" [] 1 none 5).2.records.length = 2 := by
  decide

/-- C3 amended: the Version Guard comparison runs on update, but create
applies it only when `client_version > 1`; a create with
`client_version = 1` never runs the shadow check and always creates a new
version-1 record, whatever non-deleted records already exist for the
owner/type pair. -/
theorem C3_create_v1_bypasses_guard (s : Store) (u t : String) (d : Payload)
    (cb : Option String) (now : Nat) :
    ∃ rec, create_record s u t d 1 cb now
      = (CreateResult.created s.nextId rec,
         { records := s.records ++ [(s.nextId, rec)]
           audit := s.audit ++
             [{ record_id := s.nextId, action := "create", user_id := u,
                data := AuditData.createSnapshot rec, timestamp := now }]
           nextId := s.nextId + 1 })
      ∧ rec.version = 1 := by
  refine ⟨{ user_id := u, record_type := t, data := d, version := 1,
            created_at := now, updated_at := now, created_by := cb.getD u,
            is_deleted := false, sync_status := "synced" }, ?_, rfl⟩
  simp [create_record, appendAudit]

theorem get_record_some_elim {s : Store} {id : Nat} {u : String} {r0 : HealthRecord}
    (h : get_record s id u = some r0) :
    s.records.lookup id = some r0 ∧ r0.user_id = u := by
  unfold get_record at h
  cases hl : s.records.lookup id with
  | none => rw [hl] at h; cases h
  | some rd =>
    rw [hl] at h
    by_cases ho : rd.user_id = u
    · simp only [ho, if_true] at h
      injection h with h
      subst h
      exact ⟨rfl, ho⟩
    · simp [ho] at h

/-- C7: a get call returns the record exactly when the document exists and
the caller is its owner; moreover a store where the document is absent and a
store where it exists but belongs to another owner produce identical results
(both `none`), so the caller cannot distinguish the two. -/
theorem C7_get_no_existence_leak (id : Nat) (u : String) :
    (∀ s r, get_record s id u = some r ↔ s.records.lookup id = some r ∧ r.user_id = u)
    ∧ ∀ s1 s2, s1.records.lookup id = none →
        (∀ r, s2.records.lookup id = some r → r.user_id ≠ u) →
        get_record s1 id u = get_record s2 id u := by
  constructor
  · intro s r
    exact ⟨fun h => get_record_some_elim h, fun h => get_record_eq_some h.1 h.2⟩
  · intro s1 s2 h1 h2
    have g1 : get_record s1 id u = none := by simp [get_record, h1]
    have g2 : get_record s2 id u = none := by
      cases hl : s2.records.lookup id with
      | none => simp [get_record, hl]
      | some r => simp [get_record, hl, h2 r hl]
    rw [g1, g2]

/-- Store holding a record that belongs to another caller (owner "bob"). -/
def otherOwnerStore : Store :=
  { records := [(0,
      { user_id := "bob", record_type := "prescription", data := [],
        version := 1, created_at := 0, updated_at := 0, created_by := "bob",
        is_deleted := false, sync_status := "synced" })],
    audit := [], nextId := 1 }

/-- C7 witness: for caller "alice", an empty store and a store holding only
bob's record give the same get result. -/
theorem C7_get_no_existence_leak_witness :
    get_record { records := [], audit := [], nextId := 0 } 0 "alice"
      = get_record otherOwnerStore 0 "alice" := by
  refine (C7_get_no_existence_leak 0 "alice").2
    { records := [], audit := [], nextId := 0 } otherOwnerStore (by decide) ?_
  intro r h
  have hb : otherOwnerStore.records.lookup 0 = some
      { user_id := "bob", record_type := "prescription", data := [],
        version := 1, created_at := 0, updated_at := 0, created_by := "bob",
        is_deleted := false, sync_status := "synced" } := by decide
  rw [hb] at h
  injection h with h
  rw [← h]
  decide

/-- Create request with `client_version = 0`, accepted by the schema. -/
def c9Request : MedicalHistoryCreate :=
  { title := "x", description := "d", client_version := 0 }

/-- C9 counterexample: a create request with `client_version = 0` passes the
schema validation (its only value constraint is on `title`), reaches the
store, creates a record whose stored version is 0 (not a positive integer),
and produces an audit entry — contradicting rejection before any store
interaction. -/
theorem C9_counterexample_zero_version_accepted :
    medicalHistoryCreateValid c9Request = true
    ∧ (create_record { records := [], audit := [], nextId := 0 } "alice"
        "medical_history" [] c9Request.client_version none 3).1
      = CreateResult.created 0
        { user_id := "alice", record_type := "medical_history", data := [],
          version := 0, created_at := 3, updated_at := 3, created_by := "alice",
          is_deleted := false, sync_status := "synced" }
    ∧ (create_record { records := [], audit := [], nextId := 0 } "alice"
        "medical_history" [] c9Request.client_version none 3).2.audit.length = 1 := by
  decide

/-- C9 amended: `client_version ≥ 1` is not enforced on create: the schema
validation is independent of `client_version`, and a create with
`client_version < 1` is never treated as a conflict — it creates a record
whose stored version equals the non-positive `client_version`, with one
audit entry appended. -/
theorem C9_client_version_not_validated (m : MedicalHistoryCreate) (cv : Int)
    (s : Store) (u t : String) (d : Payload) (cb : Option String) (now : Nat) :
    medicalHistoryCreateValid { m with client_version := cv }
      = medicalHistoryCreateValid m
    ∧ (cv < 1 →
      ∃ rec, create_record s u t d cv cb now
        = (CreateResult.created s.nextId rec,
           { records := s.records ++ [(s.nextId, rec)]
             audit := s.audit ++
               [{ record_id := s.nextId, action := "create", user_id := u,
                  data := AuditData.createSnapshot rec, timestamp := now }]
             nextId := s.nextId + 1 })
        ∧ rec.version = cv ∧ rec.version < 1) := by
  constructor
  · rfl
  · intro hcv
    refine ⟨{ user_id := u, record_type := t, data := d, version := cv,
              created_at := now, updated_at := now, created_by := cb.getD u,
              is_deleted := false, sync_status := "synced" }, ?_, rfl, hcv⟩
    have h1 : ¬ (1 < cv) := by omega
    simp [create_record, h1, appendAudit]

/-- C9 amended witness: at `client_version = -2` on the sample store, the
record is created with stored version -2. -/
theorem C9_client_version_not_validated_witness :
    medicalHistoryCreateValid { c9Request with client_version := -2 }
      = medicalHistoryCreateValid c9Request
    ∧ ∃ rec, (create_record sampleStore "alice" "lab_report" [] (-2) none 4).1
        = CreateResult.created 1 rec ∧ rec.version = -2 := by
  obtain ⟨h1, h2⟩ := C9_client_version_not_validated c9Request (-2) sampleStore
    "alice" "lab_report" [] none 4
  obtain ⟨rec, he, hv, _⟩ := h2 (by decide)
  exact ⟨h1, rec, by rw [he]; rfl, hv⟩

theorem list_records_mem_not_deleted {s : Store} {u : String} {rt : Option String}
    {page psz : Nat} {p : Nat × HealthRecord}
    (hp : p ∈ (list_records s u rt page psz false).records) :
    p ∈ s.records ∧ p.2.is_deleted = false := by
  simp only [list_records] at hp
  have h1 := List.mem_of_mem_take hp
  have h2 := List.mem_of_mem_drop h1
  have h3 := (mem_sortBy _ _ _).mp h2
  rw [if_neg (by simp)] at h3
  rcases List.mem_filter.mp h3 with ⟨h4, h5⟩
  refine ⟨?_, by simpa using h5⟩
  cases rt with
  | none => exact (List.mem_filter.mp h4).1
  | some t0 =>
    have h6 := (List.mem_filter.mp h4).1
    exact (List.mem_filter.mp h6).1

theorem mem_storeUpdate_key {s : Store} {id : Nat} {f : FieldPatch} {p : Nat × HealthRecord}
    (hp : p ∈ (storeUpdate s id f).records) (hk : p.1 = id) :
    ∃ q ∈ s.records, p = (q.1, applyPatch q.2 f) := by
  simp only [storeUpdate, List.mem_map] at hp
  obtain ⟨q, hq, hqe⟩ := hp
  by_cases h : q.1 = id
  · rw [if_pos h] at hqe
    exact ⟨q, hq, hqe.symm⟩
  · rw [if_neg h] at hqe
    rw [← hqe] at hk
    exact absurd hk h

/-- C8: soft delete marks the stored record deleted (`is_deleted = true`,
`deleted_at` set, `updated_at` bumped to the deletion time); afterwards the
record is excluded from every `list_records` result with
`include_deleted = false`, for any type filter and any page, yet a direct
get with the record's id still returns it. -/
theorem C8_soft_delete_list_vs_get (s : Store) (id : Nat) (u : String) (now : Nat)
    (r : HealthRecord) (hlook : s.records.lookup id = some r) (hown : r.user_id = u) :
    (delete_record s id u true now).1 = true
    ∧ ∃ r', (delete_record s id u true now).2.records.lookup id = some r'
      ∧ r'.is_deleted = true
      ∧ r'.deleted_at = some now
      ∧ r'.updated_at = now
      ∧ get_record (delete_record s id u true now).2 id u = some r'
      ∧ ∀ (rt : Option String) (page psz : Nat) (p : Nat × HealthRecord),
          p ∈ (list_records (delete_record s id u true now).2 u rt page psz false).records
          → p.1 ≠ id := by
  have hget : get_record s id u = some r := get_record_eq_some hlook hown
  have hD : delete_record s id u true now =
      (true, appendAudit (storeUpdate s id
          { is_deleted := some true, deleted_at := some now, updated_at := some now })
        id "delete" u (AuditData.deleteSnapshot true) now) := by
    simp [delete_record, hget]
  rw [hD]
  refine ⟨rfl, applyPatch r
    { is_deleted := some true, deleted_at := some now, updated_at := some now },
    ?_, rfl, rfl, rfl, ?_, ?_⟩
  · rw [appendAudit_records]
    exact lookup_storeUpdate_self _ hlook
  · apply get_record_eq_some
    · rw [appendAudit_records]
      exact lookup_storeUpdate_self _ hlook
    · rw [applyPatch_user_id]
      exact hown
  · intro rt page psz p hp hpid
    obtain ⟨hmem, hnd⟩ := list_records_mem_not_deleted hp
    rw [appendAudit_records] at hmem
    obtain ⟨q, _, hpe⟩ := mem_storeUpdate_key hmem hpid
    rw [hpe] at hnd
    simp [applyPatch] at hnd

/-- C8 witness: soft-deleting the sample record hides it from the default
listing while a direct get still returns it as deleted. -/
theorem C8_soft_delete_list_vs_get_witness :
    (delete_record sampleStore 0 "alice" true 7).1 = true
    ∧ ∃ r', get_record (delete_record sampleStore 0 "alice" true 7).2 0 "alice" = some r'
      ∧ r'.is_deleted = true
      ∧ ∀ p, p ∈ (list_records (delete_record sampleStore 0 "alice" true 7).2 "alice"
          none 1 20 false).records → p.1 ≠ 0 := by
  obtain ⟨hok, r', _, hdel, _, _, hgetr, hlist⟩ :=
    C8_soft_delete_list_vs_get sampleStore 0 "alice" 7 sampleRec rfl rfl
  exact ⟨hok, r', hgetr, hdel, fun p hp => hlist none 1 20 p hp⟩

theorem update_record_accepted_fst {s : Store} {id : Nat} {u : String} {r : HealthRecord}
    (patch : Payload) {cv : Int} (now : Nat)
    (hlook : s.records.lookup id = some r) (hown : r.user_id = u) (hlt : r.version < cv) :
    (update_record s id u patch cv now).1 =
      UpdateResult.updated (applyPatch r
        { data := some (dictMerge r.data patch), version := some cv,
          updated_at := some now, sync_status := some "synced" }) := by
  rw [update_record_accepted patch now hlook hown hlt]

theorem update_record_accepted_snd {s : Store} {id : Nat} {u : String} {r : HealthRecord}
    (patch : Payload) {cv : Int} (now : Nat)
    (hlook : s.records.lookup id = some r) (hown : r.user_id = u) (hlt : r.version < cv) :
    (update_record s id u patch cv now).2 =
      appendAudit (storeUpdate s id
          { data := some (dictMerge r.data patch), version := some cv,
            updated_at := some now, sync_status := some "synced" }) id "update" u
        (AuditData.updateSnapshot
          { data := some (dictMerge r.data patch), version := some cv,
            updated_at := some now, sync_status := some "synced" }) now := by
  rw [update_record_accepted patch now hlook hown hlt]

theorem resolve_conflict_found_fst {s : Store} {id : Nat} {u : String} {r : HealthRecord}
    (cvc : Int) (d : Payload) (now : Nat)
    (hlook : s.records.lookup id = some r) (hown : r.user_id = u) :
    (resolve_conflict s id cvc d u now).1 =
      some (applyPatch r
        { data := some d, version := some (r.version + 1), updated_at := some now,
          sync_status := some "synced", conflict_resolved_at := some now }) := by
  rw [resolve_conflict_found cvc d now hlook hown]

theorem resolve_conflict_found_snd {s : Store} {id : Nat} {u : String} {r : HealthRecord}
    (cvc : Int) (d : Payload) (now : Nat)
    (hlook : s.records.lookup id = some r) (hown : r.user_id = u) :
    (resolve_conflict s id cvc d u now).2 =
      appendAudit (storeUpdate s id
          { data := some d, version := some (r.version + 1), updated_at := some now,
            sync_status := some "synced", conflict_resolved_at := some now })
        id "resolve_conflict" u (AuditData.resolveSnapshot cvc d) now := by
  rw [resolve_conflict_found cvc d now hlook hown]

theorem update_record_rejected_snd {s : Store} {id : Nat} {u : String} {r : HealthRecord}
    (patch : Payload) {cv : Int} (now : Nat)
    (hlook : s.records.lookup id = some r) (hown : r.user_id = u) (hle : cv ≤ r.version) :
    (update_record s id u patch cv now).2 = s := by
  rw [update_record_rejected patch now hlook hown hle]

theorem writeOp_version_mono (s : Store) (op : WriteOp) (id : Nat) (r : HealthRecord)
    (h : s.records.lookup id = some r) :
    ∃ r', (applyWriteOp s op).records.lookup id = some r' ∧ r.version ≤ r'.version := by
  cases op with
  | update tid tu d cv tnow =>
    cases hg : get_record s tid tu with
    | none =>
      refine ⟨r, ?_, le_refl _⟩
      simp [applyWriteOp, update_record, hg, h]
    | some r0 =>
      obtain ⟨hl0, ho0⟩ := get_record_some_elim hg
      by_cases hcv : cv ≤ r0.version
      · refine ⟨r, ?_, le_refl _⟩
        simp only [applyWriteOp]
        rw [update_record_rejected_snd d tnow hl0 ho0 hcv]
        exact h
      · simp only [applyWriteOp]
        rw [update_record_accepted_snd d tnow hl0 ho0 (by omega)]
        by_cases hid : id = tid
        · subst hid
          rw [hl0] at h
          injection h with h
          subst h
          refine ⟨applyPatch r0
            { data := some (dictMerge r0.data d), version := some cv,
              updated_at := some tnow, sync_status := some "synced" }, ?_, ?_⟩
          · rw [appendAudit_records]
            exact lookup_storeUpdate_self _ hl0
          · simp [applyPatch]
            omega
        · refine ⟨r, ?_, le_refl _⟩
          rw [appendAudit_records, lookup_storeUpdate_ne _ hid]
          exact h
  | resolve tid tu cvc d tnow =>
    cases hg : get_record s tid tu with
    | none =>
      refine ⟨r, ?_, le_refl _⟩
      simp [applyWriteOp, resolve_conflict, hg, h]
    | some r0 =>
      obtain ⟨hl0, ho0⟩ := get_record_some_elim hg
      simp only [applyWriteOp]
      rw [resolve_conflict_found_snd cvc d tnow hl0 ho0]
      by_cases hid : id = tid
      · subst hid
        rw [hl0] at h
        injection h with h
        subst h
        refine ⟨applyPatch r0
          { data := some d, version := some (r0.version + 1), updated_at := some tnow,
            sync_status := some "synced", conflict_resolved_at := some tnow }, ?_, ?_⟩
        · rw [appendAudit_records]
          exact lookup_storeUpdate_self _ hl0
        · simp [applyPatch]
      · refine ⟨r, ?_, le_refl _⟩
        rw [appendAudit_records, lookup_storeUpdate_ne _ hid]
        exact h

/-- C5: across any sequence of the engine's write operations
(`update_record`, `resolve_conflict`) the stored version of a record never
decreases, and every accepted write strictly increases it: an accepted
update leaves the target record with a version strictly above its prior
one, and a successful resolution always does — so no version value is ever
repeated once replaced. -/
theorem C5_version_monotone_and_strict :
    (∀ (ops : List WriteOp) (s : Store) (id : Nat) (r r' : HealthRecord),
      s.records.lookup id = some r →
      (ops.foldl applyWriteOp s).records.lookup id = some r' →
      r.version ≤ r'.version)
    ∧ (∀ (s : Store) (id : Nat) (u : String) (d : Payload) (cv : Int) (now : Nat)
        (r r' : HealthRecord),
      s.records.lookup id = some r →
      (update_record s id u d cv now).1 = UpdateResult.updated r' →
      (update_record s id u d cv now).2.records.lookup id = some r'
        ∧ r.version < r'.version)
    ∧ (∀ (s : Store) (id : Nat) (u : String) (cvc : Int) (d : Payload) (now : Nat)
        (r r' : HealthRecord),
      s.records.lookup id = some r →
      (resolve_conflict s id cvc d u now).1 = some r' →
      (resolve_conflict s id cvc d u now).2.records.lookup id = some r'
        ∧ r.version < r'.version) := by
  refine ⟨?_, ?_, ?_⟩
  · intro ops
    induction ops with
    | nil =>
      intro s id r r' h h'
      rw [List.foldl_nil, h] at h'
      injection h' with h'
      rw [h']
    | cons op ops ih =>
      intro s id r r' h h'
      rw [List.foldl_cons] at h'
      obtain ⟨r1, h1, hle1⟩ := writeOp_version_mono s op id r h
      exact le_trans hle1 (ih (applyWriteOp s op) id r1 r' h1 h')
  · intro s id u d cv now r r' h hupd
    cases hg : get_record s id u with
    | none => rw [update_record, hg] at hupd; cases hupd
    | some r0 =>
      obtain ⟨hl0, ho0⟩ := get_record_some_elim hg
      rw [h] at hl0
      injection hl0 with hl0
      subst hl0
      by_cases hcv : cv ≤ r.version
      · rw [update_record_rejected d now h ho0 hcv] at hupd
        cases hupd
      · rw [update_record_accepted_fst d now h ho0 (by omega)] at hupd
        injection hupd with hupd
        constructor
        · rw [update_record_accepted_snd d now h ho0 (by omega), appendAudit_records,
            ← hupd]
          exact lookup_storeUpdate_self _ h
        · rw [← hupd]
          simp [applyPatch]
          omega
  · intro s id u cvc d now r r' h hres
    cases hg : get_record s id u with
    | none => rw [resolve_conflict, hg] at hres; cases hres
    | some r0 =>
      obtain ⟨hl0, ho0⟩ := get_record_some_elim hg
      rw [h] at hl0
      injection hl0 with hl0
      subst hl0
      rw [resolve_conflict_found_fst cvc d now h ho0] at hres
      injection hres with hres
      constructor
      · rw [resolve_conflict_found_snd cvc d now h ho0, appendAudit_records, ← hres]
        exact lookup_storeUpdate_self _ h
      · rw [← hres]
        simp [applyPatch]

/-- The sample record after the accepted update of the C5 witness trace. -/
def c5UpdatedRec : HealthRecord :=
  { user_id := "alice", record_type := "medical_history",
    data := [("k","v"), ("a","1")], version := 4, created_at := 0, updated_at := 9,
    created_by := "alice", is_deleted := false, sync_status := "synced" }

/-- The sample record at the end of the C5 witness trace (update then
resolve). -/
def c5FinalRec : HealthRecord :=
  { user_id := "alice", record_type := "medical_history",
    data := [("b","2")], version := 5, created_at := 0, updated_at := 10,
    created_by := "alice", is_deleted := false, sync_status := "synced",
    conflict_resolved_at := some 10 }

/-- C5 witness: a concrete trace (accepted update with client version 4,
then a resolution) on the sample store, with the monotone and strict
conclusions instantiated. -/
theorem C5_version_monotone_and_strict_witness :
    ([WriteOp.update 0 "alice" [("a","1")] 4 9,
      WriteOp.resolve 0 "alice" 7 [("b","2")] 10].foldl applyWriteOp
        sampleStore).records.lookup 0 = some c5FinalRec
    ∧ sampleRec.version ≤ c5FinalRec.version
    ∧ sampleRec.version < c5UpdatedRec.version := by
  have hfin : ([WriteOp.update 0 "alice" [("a","1")] 4 9,
      WriteOp.resolve 0 "alice" 7 [("b","2")] 10].foldl applyWriteOp
        sampleStore).records.lookup 0 = some c5FinalRec := by decide
  have hupd : (update_record sampleStore 0 "alice" [("a","1")] 4 9).1
      = UpdateResult.updated c5UpdatedRec := by decide
  refine ⟨hfin, ?_, ?_⟩
  · exact C5_version_monotone_and_strict.1
      [WriteOp.update 0 "alice" [("a","1")] 4 9,
       WriteOp.resolve 0 "alice" 7 [("b","2")] 10] sampleStore 0 sampleRec
      c5FinalRec rfl hfin
  · exact (C5_version_monotone_and_strict.2.1 sampleStore 0 "alice" [("a","1")] 4 9
      sampleRec c5UpdatedRec rfl hupd).2

/-- Record and store for the C6 interleaving: one record at version 1. -/
def c6Rec : HealthRecord :=
  { user_id := "alice", record_type := "medical_history", data := [("k","v")],
    version := 1, created_at := 0, updated_at := 0, created_by := "alice",
    is_deleted := false, sync_status := "synced" }

/-- Store holding `c6Rec` under document id 0. -/
def c6Store : Store := { records := [(0, c6Rec)], audit := [], nextId := 1 }

/-- C6: the read and the write of `update_record` are separate store
operations (`update_record` is literally the read `get_record` followed by
`update_commit`), not one atomic operation.  Under the interleaving
read-1, read-2, commit-1, commit-2 of two concurrent updates that each
carry `client_version = server_version + 1 = 2`, both reads see the
version-1 record, both commits pass the conflict check against their stale
snapshot, both calls return an accepted update — neither receives a
Conflict — and the first caller's merged field `"a"` is silently lost from
the final stored payload. -/
theorem C6_nonatomic_update_race_loses_write :
    get_record c6Store 0 "alice" = some c6Rec
    ∧ (update_commit c6Store 0 "alice" [("a","1")] 2 10 c6Rec).1.isAccepted = true
    ∧ (update_commit (update_commit c6Store 0 "alice" [("a","1")] 2 10 c6Rec).2
         0 "alice" [("b","2")] 2 11 c6Rec).1.isAccepted = true
    ∧ ((update_commit (update_commit c6Store 0 "alice" [("a","1")] 2 10 c6Rec).2
         0 "alice" [("b","2")] 2 11 c6Rec).2.records.lookup 0).map
        (fun r => r.data) = some [("k","v"), ("b","2")]
    ∧ ((update_commit (update_commit c6Store 0 "alice" [("a","1")] 2 10 c6Rec).2
         0 "alice" [("b","2")] 2 11 c6Rec).2.records.lookup 0).map
        (fun r => (r.data.lookup "a").isNone) = some true := by
  decide

end HealthRecords
